import Mathlib

/-! Shallow embedding of the winpipe byte-stream relay.

The Rust sources embedded here are `src/main.rs` (the two relay pumps
`stdin_to_pipe` and `pipe_to_stdout`, and `main`), `src/console.rs`
(`Console::setup`, `Console::restore`), `src/named_pipe.rs`
(`NamedPipe::open_wait`, `NamedPipe::try_open`, `NamedPipe::write`,
`HandleDesc::try_clone`, `Clone for HandleDesc`) and `src/logger.rs`
(`setup_logger`).

Operating-system calls are replaced by explicit oracles: a function giving
the result of the i-th call of each kind.  Loops become structural
recursion on a fuel parameter; a run that exhausts its fuel reports `none`
as its outcome, meaning the loop was still running at that point.
-/

/-- Classification of the `windows::core::Error` values the sources match
on: `ERROR_FILE_NOT_FOUND`, `ERROR_IO_PENDING`, `ERROR_PIPE_NOT_CONNECTED`,
`STATUS_INTERRUPTED`, `ERROR_OPERATION_ABORTED`, and any other code. -/
inductive WinErr where
  | notFound
  | ioPending
  | notConnected
  | interrupted
  | aborted
  | other (code : Nat)
deriving DecidableEq, Repr

deriving instance DecidableEq for Except

/-! Console mode flags, with the bit values of the Windows console API
constants imported at the top of `src/console.rs`. -/

def ENABLE_PROCESSED_INPUT : Nat := 0x0001

def ENABLE_LINE_INPUT : Nat := 0x0002

def ENABLE_ECHO_INPUT : Nat := 0x0004

def ENABLE_WINDOW_INPUT : Nat := 0x0008

def ENABLE_INSERT_MODE : Nat := 0x0020

def ENABLE_VIRTUAL_TERMINAL_INPUT : Nat := 0x0200

def ENABLE_PROCESSED_OUTPUT : Nat := 0x0001

def ENABLE_VIRTUAL_TERMINAL_PROCESSING : Nat := 0x0004

def DISABLE_NEWLINE_AUTO_RETURN : Nat := 0x0008

/-- `const UNICODE_UTF8_CP_ID: u32 = 65001` from `src/console.rs`. -/
def UNICODE_UTF8_CP_ID : Nat := 65001

/-- Bitwise complement on a `u32` value (`!x` in Rust), as a `Nat`. -/
def not32 (x : Nat) : Nat := 0xFFFFFFFF ^^^ x

/-- New console input mode computed by `Console::setup`
(`src/console.rs` lines 86-89):
`mode = !(ENABLE_LINE_INPUT | ENABLE_ECHO_INPUT | ENABLE_INSERT_MODE |
ENABLE_PROCESSED_INPUT) | ENABLE_WINDOW_INPUT;`
`mode &= orig_in_mode | ENABLE_VIRTUAL_TERMINAL_INPUT;`. -/
def setup_in_mode (orig_in_mode : Nat) : Nat :=
  let mode := not32 (ENABLE_LINE_INPUT ||| ENABLE_ECHO_INPUT |||
      ENABLE_INSERT_MODE ||| ENABLE_PROCESSED_INPUT) ||| ENABLE_WINDOW_INPUT
  mode &&& (orig_in_mode ||| ENABLE_VIRTUAL_TERMINAL_INPUT)

/-- New console output mode computed by `Console::setup`
(`src/console.rs` lines 99-102): the original output mode with
`ENABLE_PROCESSED_OUTPUT`, `ENABLE_VIRTUAL_TERMINAL_PROCESSING` and
`DISABLE_NEWLINE_AUTO_RETURN` or-ed in. -/
def setup_out_mode (orig_out_mode : Nat) : Nat :=
  orig_out_mode ||| ENABLE_PROCESSED_OUTPUT |||
    ENABLE_VIRTUAL_TERMINAL_PROCESSING ||| DISABLE_NEWLINE_AUTO_RETURN

/-- The input mode the spec describes ("original minus {line-buffering,
echo, insertion, input-preprocessing} plus {window-events,
raw-escape-input}"), stated in the spec's words for comparison with
`setup_in_mode`. -/
def spec_in_mode (orig_in_mode : Nat) : Nat :=
  (orig_in_mode &&& not32 (ENABLE_LINE_INPUT ||| ENABLE_ECHO_INPUT |||
      ENABLE_INSERT_MODE ||| ENABLE_PROCESSED_INPUT)) |||
    ENABLE_WINDOW_INPUT ||| ENABLE_VIRTUAL_TERMINAL_INPUT

/-- The captured console state held by `Console` (`src/console.rs`): the
original codepages and mode flag words.  The two `SafeHandle` fields are
opaque OS handles and are not represented. -/
structure Console where
  orig_con_cp : Nat
  orig_con_ocp : Nat
  orig_in_mode : Nat
  orig_out_mode : Nat
deriving DecidableEq, Repr

/-- The four settings `Console::restore` reapplies, in source order:
`SetConsoleCP`, `SetConsoleOutputCP`, `SetConsoleMode` on stdin,
`SetConsoleMode` on stdout. -/
inductive RestoreItem where
  | inCP
  | outCP
  | inMode
  | outMode
deriving DecidableEq, Repr

/-- `Console::restore` (`src/console.rs` lines 71-79).  The oracle `os`
gives the outcome of each `Set…` call (`none` is success).  Returns the
function's result together with the list of settings actually applied,
each paired with the captured value it was given, in application order.
Each `?` makes the function return at the first failing call. -/
def Console.restore (c : Console) (os : RestoreItem → Option WinErr) :
    Except WinErr Unit × List (RestoreItem × Nat) :=
  match os .inCP with
  | some e => (.error e, [])
  | none =>
    match os .outCP with
    | some e => (.error e, [(.inCP, c.orig_con_cp)])
    | none =>
      match os .inMode with
      | some e => (.error e, [(.inCP, c.orig_con_cp), (.outCP, c.orig_con_ocp)])
      | none =>
        match os .outMode with
        | some e => (.error e,
            [(.inCP, c.orig_con_cp), (.outCP, c.orig_con_ocp),
             (.inMode, c.orig_in_mode)])
        | none => (.ok (),
            [(.inCP, c.orig_con_cp), (.outCP, c.orig_con_ocp),
             (.inMode, c.orig_in_mode), (.outMode, c.orig_out_mode)])

/-- Number of times `main` (`src/main.rs` lines 113-176) invokes
`con.restore()`, as a function of the outcomes of its fallible steps:
`Console::new`, `Console::setup`, `NamedPipe::try_open`, and the results
of the two relay pumps (which `main` only logs).  `main` returns early
without restoring when `new`, `setup` or `try_open` fails; otherwise it
joins both threads and calls `restore` exactly once. -/
def main_restore_count (new_res setup_res open_res : Except WinErr Unit)
    (_dir_stdin_to_pipe _dir_pipe_to_stdout : Except WinErr Unit) : Nat :=
  match new_res with
  | .error _ => 0
  | .ok () =>
    match setup_res with
    | .error _ => 0
    | .ok () =>
      match open_res with
      | .error _ => 0
      | .ok () => 1

/-- `HandleDesc` (`src/named_pipe.rs`): a raw OS handle stored as `isize`. -/
structure HandleDesc where
  handle : Int
deriving DecidableEq, Repr

/-- `HandleDesc::try_clone` (`src/named_pipe.rs` lines 51-71).  The oracle
`dup_res` is the outcome of the `DuplicateHandle` call; on success it
carries the duplicated raw handle. -/
def HandleDesc.try_clone (_self : HandleDesc) (dup_res : Except WinErr Int) :
    Except WinErr HandleDesc :=
  match dup_res with
  | .error e => .error e
  | .ok h => .ok ⟨h⟩

/-- `Clone for HandleDesc` (`src/named_pipe.rs` lines 74-78):
`self.try_clone().unwrap()`.  The `none` result models the unwrap panic
that aborts the process when duplication fails; the return type has no
error value. -/
def HandleDesc.clone (self : HandleDesc) (dup_res : Except WinErr Int) :
    Option HandleDesc :=
  match self.try_clone dup_res with
  | .ok h => some h
  | .error _ => none

/-- `NamedPipe` (`src/named_pipe.rs`): owns one `HandleDesc`. -/
structure NamedPipe where
  pipe_handle : HandleDesc
deriving DecidableEq, Repr

/-- Loop body of `NamedPipe::open_wait` (`src/named_pipe.rs` lines
125-140).  `att i` is the result of the i-th `Self::open(name)` attempt.
Returns the result (`none` while still retrying when the fuel runs out)
together with the list of sleep durations performed, in order: the code
sleeps `100` ms after each `ERROR_FILE_NOT_FOUND` failure and retries;
any other error breaks the loop. -/
def open_wait_aux (att : Nat → Except WinErr NamedPipe) (i : Nat) :
    Nat → Option (Except WinErr NamedPipe) × List Nat
  | 0 => (none, [])
  | fuel + 1 =>
    match att i with
    | .ok pipe => (some (.ok pipe), [])
    | .error e =>
      if e = WinErr.notFound then
        ((open_wait_aux att (i + 1) fuel).1, 100 :: (open_wait_aux att (i + 1) fuel).2)
      else (some (.error e), [])

/-- `NamedPipe::open_wait` (`src/named_pipe.rs` lines 125-140), starting
at the first attempt. -/
def NamedPipe.open_wait (att : Nat → Except WinErr NamedPipe) (fuel : Nat) :
    Option (Except WinErr NamedPipe) × List Nat :=
  open_wait_aux att 0 fuel

/-- `NamedPipe::try_open` (`src/named_pipe.rs` lines 117-123): with
`wait = true` it runs `open_wait`; with `wait = false` it performs exactly
one `open` attempt and returns its result, sleeping never. -/
def NamedPipe.try_open (att : Nat → Except WinErr NamedPipe) (wait : Bool)
    (fuel : Nat) : Option (Except WinErr NamedPipe) × List Nat :=
  if wait then NamedPipe.open_wait att fuel else (some (att 0), [])

/-- `NamedPipe::write` (`src/named_pipe.rs` lines 209-233).
`write_file_res` is the outcome of the single `WriteFile` call (on success
the OS-reported `bytes_written`); when it fails with `ERROR_IO_PENDING`,
`overlapped_res` is the outcome of `GetOverlappedResult` (again the
OS-reported count on success).  There is no retry: whatever count the one
operation reports is returned. -/
def NamedPipe.write (_self : NamedPipe) (_buffer : List Nat)
    (write_file_res : Except WinErr Nat) (overlapped_res : Except WinErr Nat) :
    Except WinErr Nat :=
  match write_file_res with
  | .ok n => .ok n
  | .error e => if e = WinErr.ioPending then overlapped_res else .error e

/-- Outcome of a run of `stdin_to_pipe`: the loop's result (`none` when
the fuel ran out with the loop still going), the buffers passed to
successful `pipe.write` calls in order, and the index one past the last
console read processed. -/
structure STPRun where
  result : Option (Except WinErr Unit)
  written : List (List Nat)
  consumed : Nat
deriving DecidableEq, Repr

/-- Loop of `stdin_to_pipe` (`src/main.rs` lines 42-68).  `reads ri` is
the result of the i-th `con.read` into the fresh 1024-byte buffer: on
success the list of bytes placed at its front, with `n` the list's
length.  `wres wi` is the outcome of the i-th `pipe.write` (`none` is
success).  On success the code truncates the 1024-byte buffer to `n`
bytes and writes it; on `STATUS_INTERRUPTED` it sleeps and retries; on
`ERROR_OPERATION_ABORTED` it breaks with `Ok(())`; on any other error it
breaks with that error. -/
def stdin_to_pipe_aux (reads : Nat → Except WinErr (List Nat))
    (wres : Nat → Option WinErr) (ri wi : Nat) (acc : List (List Nat)) :
    Nat → STPRun
  | 0 => ⟨none, acc, ri⟩
  | fuel + 1 =>
    match reads ri with
    | .error e =>
      if e = WinErr.interrupted then
        stdin_to_pipe_aux reads wres (ri + 1) wi acc fuel
      else if e = WinErr.aborted then ⟨some (.ok ()), acc, ri⟩
      else ⟨some (.error e), acc, ri⟩
    | .ok data =>
      match wres wi with
      | some e => ⟨some (.error e), acc, ri⟩
      | none =>
        stdin_to_pipe_aux reads wres (ri + 1) (wi + 1)
          (acc ++ [(data ++ List.replicate (1024 - data.length) 0).take data.length])
          fuel

/-- `stdin_to_pipe` started from its initial state. -/
def stdin_to_pipe (reads : Nat → Except WinErr (List Nat))
    (wres : Nat → Option WinErr) (fuel : Nat) : STPRun :=
  stdin_to_pipe_aux reads wres 0 0 [] fuel

/-- Outcome of a run of `pipe_to_stdout`: the loop's result, the buffers
written to the console and to the redirection file in order, the number
of `con.cancel_read()` invocations, and the index one past the last pipe
read processed. -/
structure PTSRun where
  result : Option (Except WinErr Unit)
  conOut : List (List Nat)
  fileOut : List (List Nat)
  cancels : Nat
  consumed : Nat
deriving DecidableEq, Repr

/-- Loop of `pipe_to_stdout` (`src/main.rs` lines 86-110).  `reads ri` is
the result of the i-th `pipe.read`: on success the bytes placed in the
buffer (which `NamedPipe::read` sized to the peeked available count), with
`n` the list's length.  `conW` and `fileW` give the outcomes of the
console writes and the redirection-file writes (`none` is success).  A
read of `n == 0` bytes sleeps 100 ms and retries; `ERROR_PIPE_NOT_CONNECTED`
invokes `con.cancel_read()` and breaks with `Ok(())`; any other read error
breaks with that error; otherwise the buffer is written to the console
and, when `redir` is set, appended to the file.
`Console::cancel_read` itself is absent from `src/console.rs`; it is
modelled from the spec: an operation that unblocks the pending console
read and succeeds, so the `?` after it never propagates an error. -/
def pipe_to_stdout_aux (reads : Nat → Except WinErr (List Nat))
    (conW fileW : Nat → Option WinErr) (redir : Bool)
    (ri ci fi : Nat) (conAcc fileAcc : List (List Nat)) : Nat → PTSRun
  | 0 => ⟨none, conAcc, fileAcc, 0, ri⟩
  | fuel + 1 =>
    match reads ri with
    | .ok data =>
      if data.length = 0 then
        pipe_to_stdout_aux reads conW fileW redir (ri + 1) ci fi conAcc fileAcc fuel
      else
        match conW ci with
        | some e => ⟨some (.error e), conAcc, fileAcc, 0, ri⟩
        | none =>
          if redir then
            match fileW fi with
            | some e => ⟨some (.error e), conAcc ++ [data], fileAcc, 0, ri⟩
            | none =>
              pipe_to_stdout_aux reads conW fileW redir (ri + 1) (ci + 1) (fi + 1)
                (conAcc ++ [data]) (fileAcc ++ [data]) fuel
          else
            pipe_to_stdout_aux reads conW fileW redir (ri + 1) (ci + 1) fi
              (conAcc ++ [data]) fileAcc fuel
    | .error e =>
      if e = WinErr.notConnected then ⟨some (.ok ()), conAcc, fileAcc, 1, ri⟩
      else ⟨some (.error e), conAcc, fileAcc, 0, ri⟩

/-- `pipe_to_stdout` (`src/main.rs` lines 70-111): when a redirection path
is configured the file is first opened in create/append mode
(`open_res`, with `none` for success); a failed open returns that error
before the loop starts. -/
def pipe_to_stdout (reads : Nat → Except WinErr (List Nat))
    (conW fileW : Nat → Option WinErr) (redir : Bool)
    (open_res : Option WinErr) (fuel : Nat) : PTSRun :=
  if redir then
    match open_res with
    | some e => ⟨some (.error e), [], [], 0, 0⟩
    | none => pipe_to_stdout_aux reads conW fileW true 0 0 0 [] [] fuel
  else pipe_to_stdout_aux reads conW fileW false 0 0 0 [] [] fuel

/-- A `pipe_to_stdout` run with a configured redirection sink in a
fault-free write environment: the file opens and every console and file
write succeeds. -/
def pts_clean (reads : Nat → Except WinErr (List Nat)) (fuel : Nat) : PTSRun :=
  pipe_to_stdout reads (fun _ => none) (fun _ => none) true none fuel

/-- Successful chunk of one `pipe.read` / `con.read` result, if any. -/
def okChunk : Except WinErr (List Nat) → Option (List Nat)
  | .ok d => some d
  | .error _ => none

/-- The chunks of the successful reads among `reads i, …, reads (i+k-1)`,
in order. -/
def okChunksFrom (reads : Nat → Except WinErr (List Nat)) (i k : Nat) :
    List (List Nat) :=
  (List.range k).filterMap (fun j => okChunk (reads (i + j)))

/-- Concatenation of the bytes of the successful reads among
`reads i, …, reads (i+k-1)`, in order. -/
def okBytesFrom (reads : Nat → Except WinErr (List Nat)) (i k : Nat) :
    List Nat :=
  (okChunksFrom reads i k).flatten

/-- Bytes of the message the logger emits once initialization succeeds
(`info!("Logger initialized!")` in `src/logger.rs`); `setup_logger`
attaches a file appender for the redirection path, so this record
reaches the redirection file before any relayed bytes do.  The appender
also wraps the message with a timestamp and level, not modelled here. -/
def loggerInitMessage : List Nat := "Logger initialized!".toList.map Char.toNat

/-- Contents of the redirection file after a fault-free `pipe_to_stdout`
run: `main` calls `setup_logger(&args.redir)` before spawning the pumps
(`src/main.rs` line 116), so the logger's initialization record is
appended to the same file ahead of the bytes the relay tees into it. -/
def redir_sink_with_logger (reads : Nat → Except WinErr (List Nat))
    (fuel : Nat) : List Nat :=
  loggerInitMessage ++ (pts_clean reads fuel).fileOut.flatten

/-- Open attempts that fail twice with `ERROR_FILE_NOT_FOUND` and then
succeed; input for the `open_wait` witness. -/
def c5_att : Nat → Except WinErr NamedPipe := fun i =>
  if i < 2 then .error WinErr.notFound else .ok ⟨⟨7⟩⟩

/-- Pipe reads delivering one chunk and then reporting disconnection;
input for the `pipe_to_stdout` witnesses. -/
def c6_reads : Nat → Except WinErr (List Nat) := fun i =>
  if i = 0 then .ok [5] else .error WinErr.notConnected

/-- Pipe reads delivering the bytes of `"pong"` and then reporting
disconnection; input for the redirection counterexample. -/
def pong_reads : Nat → Except WinErr (List Nat) := fun i =>
  if i = 0 then .ok [112, 111, 110, 103] else .error WinErr.notConnected

/-- Console reads that always succeed with zero bytes; input for the
zero-byte-read counterexample. -/
def zero_reads : Nat → Except WinErr (List Nat) := fun _ => .ok []

/-- Restore oracle whose `SetConsoleMode` call on stdin fails; input for
the `Console.restore` witness. -/
def c10_os : RestoreItem → Option WinErr := fun it =>
  match it with
  | .inMode => some (WinErr.other 5)
  | _ => none

/-! Helper lemmas about `okChunksFrom` and `okBytesFrom`. -/

theorem okChunksFrom_zero (reads : Nat → Except WinErr (List Nat)) (i : Nat) :
    okChunksFrom reads i 0 = [] := rfl

theorem okChunksFrom_succ (reads : Nat → Except WinErr (List Nat)) (i k : Nat) :
    okChunksFrom reads i (k + 1) =
      (okChunk (reads i)).toList ++ okChunksFrom reads (i + 1) k := by
  unfold okChunksFrom
  rw [List.range_succ_eq_map, List.filterMap_cons, List.filterMap_map]
  have h : (fun j => okChunk (reads (i + j))) ∘ Nat.succ
      = fun j => okChunk (reads (i + 1 + j)) := by
    funext j
    simp only [Function.comp_apply]
    have hij : i + Nat.succ j = i + 1 + j := by omega
    rw [hij]
  rw [h]
  cases hc : okChunk (reads (i + 0)) with
  | none =>
    rw [Nat.add_zero] at hc
    simp [hc]
  | some d =>
    rw [Nat.add_zero] at hc
    simp [hc]

theorem okBytesFrom_zero (reads : Nat → Except WinErr (List Nat)) (i : Nat) :
    okBytesFrom reads i 0 = [] := rfl

theorem okBytesFrom_succ (reads : Nat → Except WinErr (List Nat)) (i k : Nat) :
    okBytesFrom reads i (k + 1) =
      (okChunk (reads i)).getD [] ++ okBytesFrom reads (i + 1) k := by
  unfold okBytesFrom
  rw [okChunksFrom_succ, List.flatten_append]
  cases okChunk (reads i) <;> simp

/-- Claim C1, counterexample: with console creation and setup both
successful, a failed channel open makes `main` return early, so restore
runs zero times rather than once on that exit path. -/
theorem main_restore_skipped_on_open_failure :
    main_restore_count (.ok ()) (.ok ()) (.error (WinErr.other 2))
      (.ok ()) (.ok ()) = 0 := rfl

/-- Claim C1 (amended): once setup and the channel open have succeeded,
`main` invokes `Console::restore` exactly once before exiting, whatever
the outcomes of the two relay directions (normal completion, fatal error,
forced shutdown); but when opening the channel fails after a successful
setup, `main` returns early and never invokes restore. -/
theorem main_restore_exactly_once_after_open :
    ∀ (d1 d2 : Except WinErr Unit) (e : WinErr),
      main_restore_count (.ok ()) (.ok ()) (.ok ()) d1 d2 = 1 ∧
      main_restore_count (.ok ()) (.ok ()) (.error e) d1 d2 = 0 :=
  fun _ _ _ => ⟨rfl, rfl⟩

/-- Claim C2: evaluating the mode computation of `Console::setup` at an
original input mode without `ENABLE_WINDOW_INPUT` (here `0`).  The code
produces `0x0200` (`ENABLE_VIRTUAL_TERMINAL_INPUT` only): the
`| ENABLE_WINDOW_INPUT` in the source lands inside the complement mask,
where that bit is already set, so the window-events flag is never added —
it is only preserved.  The spec's transformation (`spec_in_mode`) does add
it.  The output-mode computation matches the claim. -/
theorem setup_in_mode_drops_window_flag :
    setup_in_mode 0 = 0x0200 ∧
    setup_in_mode 0 &&& ENABLE_WINDOW_INPUT = 0 ∧
    spec_in_mode 0 &&& ENABLE_WINDOW_INPUT = ENABLE_WINDOW_INPUT ∧
    setup_out_mode 0 = ENABLE_PROCESSED_OUTPUT |||
      ENABLE_VIRTUAL_TERMINAL_PROCESSING ||| DISABLE_NEWLINE_AUTO_RETURN := by
  decide

/-- Claim C9: duplicating a `HandleDesc` via `Clone` surfaces no error
value: whenever `try_clone` fails, `clone` panics (modelled by `none`),
and whenever `try_clone` succeeds, `clone` returns the duplicate. -/
theorem clone_panics_on_dup_failure :
    ∀ (self : HandleDesc) (dup_res : Except WinErr Int),
      (∀ e, self.try_clone dup_res = .error e → self.clone dup_res = none) ∧
      (∀ h, self.try_clone dup_res = .ok h → self.clone dup_res = some h) := by
  intro self dup_res
  constructor
  · intro e he
    unfold HandleDesc.clone
    rw [he]
  · intro h hh
    unfold HandleDesc.clone
    rw [hh]

/-- Witness for `clone_panics_on_dup_failure` at a concrete failing
duplication. -/
theorem clone_panics_on_dup_failure_witness :
    HandleDesc.clone ⟨3⟩ (.error WinErr.aborted) = none :=
  (clone_panics_on_dup_failure ⟨3⟩ (.error WinErr.aborted)).1 WinErr.aborted rfl

/-- Claim C10: `Console::restore` applies input codepage, output
codepage, input mode, output mode in that fixed order and returns at the
first failing call, leaving the later settings unapplied. -/
theorem console_restore_order_and_first_failure :
    ∀ (c : Console) (os : RestoreItem → Option WinErr),
      (∀ e, os .inCP = some e → Console.restore c os = (.error e, [])) ∧
      (∀ e, os .inCP = none → os .outCP = some e →
        Console.restore c os = (.error e, [(.inCP, c.orig_con_cp)])) ∧
      (∀ e, os .inCP = none → os .outCP = none → os .inMode = some e →
        Console.restore c os =
          (.error e, [(.inCP, c.orig_con_cp), (.outCP, c.orig_con_ocp)])) ∧
      (∀ e, os .inCP = none → os .outCP = none → os .inMode = none →
        os .outMode = some e →
        Console.restore c os =
          (.error e, [(.inCP, c.orig_con_cp), (.outCP, c.orig_con_ocp),
            (.inMode, c.orig_in_mode)])) ∧
      (os .inCP = none → os .outCP = none → os .inMode = none →
        os .outMode = none →
        Console.restore c os =
          (.ok (), [(.inCP, c.orig_con_cp), (.outCP, c.orig_con_ocp),
            (.inMode, c.orig_in_mode), (.outMode, c.orig_out_mode)])) := by
  intro c os
  refine ⟨?_, ?_, ?_, ?_, ?_⟩
  · intro e h1
    simp [Console.restore, h1]
  · intro e h1 h2
    simp [Console.restore, h1, h2]
  · intro e h1 h2 h3
    simp [Console.restore, h1, h2, h3]
  · intro e h1 h2 h3 h4
    simp [Console.restore, h1, h2, h3, h4]
  · intro h1 h2 h3 h4
    simp [Console.restore, h1, h2, h3, h4]

/-- Witness for `console_restore_order_and_first_failure`: a restore whose
stdin `SetConsoleMode` fails reapplies only the two codepages and
propagates the error. -/
theorem console_restore_order_witness :
    Console.restore ⟨1, 2, 3, 4⟩ c10_os =
      (.error (WinErr.other 5), [(.inCP, 1), (.outCP, 2)]) :=
  (console_restore_order_and_first_failure ⟨1, 2, 3, 4⟩ c10_os).2.2.1
    (WinErr.other 5) rfl rfl rfl

/-- Claim C7, counterexample: a `WriteFile` that completes having written
1 of the 2 buffer bytes makes `NamedPipe::write` return success with
count 1; nothing retries the remainder. -/
theorem pipe_write_short_count_accepted :
    NamedPipe.write ⟨⟨3⟩⟩ [1, 2] (.ok 1) (.error WinErr.aborted) = .ok 1 ∧
    [1, 2].length = 2 ∧ (1 : Nat) ≠ 2 := by decide

/-- Claim C7 (amended): `NamedPipe::write` performs a single underlying
write — waiting on `GetOverlappedResult` only when the write returns
`ERROR_IO_PENDING` — and returns whatever byte count that one operation
reports, without comparing it to the buffer length or retrying a
remainder. -/
theorem pipe_write_single_attempt :
    ∀ (p : NamedPipe) (buffer : List Nat) (n : Nat)
      (ov : Except WinErr Nat) (e : WinErr),
      NamedPipe.write p buffer (.ok n) ov = .ok n ∧
      NamedPipe.write p buffer (.error WinErr.ioPending) ov = ov ∧
      (e ≠ WinErr.ioPending → NamedPipe.write p buffer (.error e) ov = .error e) := by
  intro p buffer n ov e
  refine ⟨rfl, ?_, ?_⟩
  · simp [NamedPipe.write]
  · intro he
    simp [NamedPipe.write, he]

/-- Witness for `pipe_write_single_attempt`: a non-pending error from the
single write attempt is returned as-is. -/
theorem pipe_write_single_attempt_witness :
    NamedPipe.write ⟨⟨0⟩⟩ [9] (.error WinErr.aborted) (.ok 1)
      = .error WinErr.aborted :=
  (pipe_write_single_attempt ⟨⟨0⟩⟩ [9] 1 (.ok 1) WinErr.aborted).2.2 (by decide)

/-- `open_wait_aux` never reports `ERROR_FILE_NOT_FOUND`: that error only
triggers a sleep and another attempt. -/
theorem open_wait_aux_no_notFound (att : Nat → Except WinErr NamedPipe) :
    ∀ (fuel i : Nat) (r : Except WinErr NamedPipe),
      (open_wait_aux att i fuel).1 = some r → r ≠ .error WinErr.notFound := by
  intro fuel
  induction fuel with
  | zero =>
    intro i r h
    exact absurd h (by simp [open_wait_aux])
  | succ n ih =>
    intro i r h
    rw [open_wait_aux] at h
    cases hatt : att i with
    | ok p =>
      simp only [hatt] at h
      simp at h
      subst h
      simp
    | error e =>
      simp only [hatt] at h
      by_cases he : e = WinErr.notFound
      · rw [if_pos he] at h
        exact ih (i + 1) r (by simpa using h)
      · rw [if_neg he] at h
        simp at h
        subst h
        intro hc
        injection hc with h2
        exact he h2

/-- When the first `k` attempts fail with `ERROR_FILE_NOT_FOUND` and
attempt `k` does not, `open_wait_aux` returns attempt `k`'s result after
`k` sleeps of 100 ms. -/
theorem open_wait_aux_first_good (att : Nat → Except WinErr NamedPipe) :
    ∀ (k i fuel : Nat),
      (∀ j, j < k → att (i + j) = .error WinErr.notFound) →
      att (i + k) ≠ .error WinErr.notFound → k < fuel →
      open_wait_aux att i fuel = (some (att (i + k)), List.replicate k 100) := by
  intro k
  induction k with
  | zero =>
    intro i fuel _ hgood hfuel
    rw [Nat.add_zero] at hgood
    match fuel, hfuel with
    | f + 1, _ =>
      rw [open_wait_aux, Nat.add_zero]
      cases hatt : att i with
      | ok p =>
        simp only [hatt]
        simp [hatt]
      | error e =>
        have hne : e ≠ WinErr.notFound := by
          intro hc
          exact hgood (by rw [hatt, hc])
        simp only [hatt, if_neg hne]
        simp [hatt]
  | succ m ih =>
    intro i fuel hbad hgood hfuel
    match fuel, hfuel with
    | f + 1, hf =>
      have h0 : att i = .error WinErr.notFound := by
        have := hbad 0 (Nat.succ_pos m)
        rwa [Nat.add_zero] at this
      rw [open_wait_aux]
      simp only [h0]
      rw [if_pos trivial]
      have hshift : ∀ j, j < m → att (i + 1 + j) = .error WinErr.notFound := by
        intro j hj
        have := hbad (j + 1) (Nat.succ_lt_succ hj)
        rwa [show i + (j + 1) = i + 1 + j by omega] at this
      have hgood1 : att (i + 1 + m) ≠ .error WinErr.notFound := by
        rwa [show i + 1 + m = i + (m + 1) by omega]
      have hrec := ih (i + 1) f hshift hgood1 (by omega)
      rw [hrec]
      rw [show i + 1 + m = i + (m + 1) by omega]
      simp [List.replicate_succ]

/-- When every attempt fails with `ERROR_FILE_NOT_FOUND`, `open_wait_aux`
is still retrying whatever the fuel: it never produces a result. -/
theorem open_wait_aux_all_notFound (att : Nat → Except WinErr NamedPipe)
    (hall : ∀ i, att i = .error WinErr.notFound) :
    ∀ (fuel i : Nat), (open_wait_aux att i fuel).1 = none := by
  intro fuel
  induction fuel with
  | zero => intro i; rfl
  | succ n ih =>
    intro i
    rw [open_wait_aux]
    simp only [hall i]
    rw [if_pos trivial]
    exact ih (i + 1)

/-- Claim C5: `open_wait` never returns `NotFound` (it sleeps 100 ms after
each such failure and retries); the first attempt whose result is not
`NotFound` is returned as-is, after one 100 ms sleep per preceding
`NotFound`; if every attempt is `NotFound` the loop never returns; and
`try_open` with `wait = false` performs exactly one attempt and returns
its result immediately, with no sleeps. -/
theorem open_wait_retry_policy :
    ∀ (att : Nat → Except WinErr NamedPipe) (fuel k : Nat),
      (∀ r, (NamedPipe.open_wait att fuel).1 = some r →
        r ≠ .error WinErr.notFound) ∧
      ((∀ i, i < k → att i = .error WinErr.notFound) →
        att k ≠ .error WinErr.notFound → k < fuel →
        NamedPipe.open_wait att fuel = (some (att k), List.replicate k 100)) ∧
      ((∀ i, att i = .error WinErr.notFound) →
        (NamedPipe.open_wait att fuel).1 = none) ∧
      NamedPipe.try_open att false fuel = (some (att 0), []) := by
  intro att fuel k
  refine ⟨fun r h => open_wait_aux_no_notFound att fuel 0 r h, ?_, ?_, rfl⟩
  · intro hbad hgood hf
    have hb : ∀ j, j < k → att (0 + j) = .error WinErr.notFound := by
      intro j hj
      rw [Nat.zero_add]
      exact hbad j hj
    have hg : att (0 + k) ≠ .error WinErr.notFound := by
      rwa [Nat.zero_add]
    have := open_wait_aux_first_good att k 0 fuel hb hg hf
    rwa [Nat.zero_add] at this
  · intro hall
    exact open_wait_aux_all_notFound att hall fuel 0

/-- Witness for `open_wait_retry_policy`: two `NotFound` failures then a
successful open give the pipe after two 100 ms sleeps. -/
theorem open_wait_retry_policy_witness :
    NamedPipe.open_wait c5_att 5 = (some (c5_att 2), List.replicate 2 100) :=
  (open_wait_retry_policy c5_att 5 2).2.1 (by decide) (by decide) (by decide)

/-- Invariant of the `stdin_to_pipe` loop in a fault-free channel-write
environment: starting at read index `ri` with accumulator `acc`, the run
consumes some `k` further reads and the buffers it writes to the channel
are exactly the chunks of the successful reads among them, in order. -/
theorem stdin_to_pipe_aux_inv (reads : Nat → Except WinErr (List Nat)) :
    ∀ (fuel ri wi : Nat) (acc : List (List Nat)),
      ∃ k,
        (stdin_to_pipe_aux reads (fun _ => none) ri wi acc fuel).consumed = ri + k ∧
        (stdin_to_pipe_aux reads (fun _ => none) ri wi acc fuel).written
          = acc ++ okChunksFrom reads ri k := by
  intro fuel
  induction fuel with
  | zero =>
    intro ri wi acc
    exact ⟨0, rfl, by simp [stdin_to_pipe_aux, okChunksFrom_zero]⟩
  | succ n ih =>
    intro ri wi acc
    cases hr : reads ri with
    | error e =>
      by_cases hi : e = WinErr.interrupted
      · obtain ⟨k, hc, hw⟩ := ih (ri + 1) wi acc
        refine ⟨k + 1, ?_, ?_⟩
        · rw [stdin_to_pipe_aux]
          simp only [hr, if_pos hi]
          rw [hc]
          omega
        · rw [stdin_to_pipe_aux]
          simp only [hr, if_pos hi]
          rw [hw, okChunksFrom_succ, hr]
          simp [okChunk]
      · by_cases ha : e = WinErr.aborted
        · refine ⟨0, ?_, ?_⟩
          · rw [stdin_to_pipe_aux]
            simp only [hr, if_neg hi, if_pos ha]
            omega
          · rw [stdin_to_pipe_aux]
            simp only [hr, if_neg hi, if_pos ha]
            simp [okChunksFrom_zero]
        · refine ⟨0, ?_, ?_⟩
          · rw [stdin_to_pipe_aux]
            simp only [hr, if_neg hi, if_neg ha]
            omega
          · rw [stdin_to_pipe_aux]
            simp only [hr, if_neg hi, if_neg ha]
            simp [okChunksFrom_zero]
    | ok data =>
      obtain ⟨k, hc, hw⟩ := ih (ri + 1) (wi + 1)
        (acc ++ [(data ++ List.replicate (1024 - data.length) 0).take data.length])
      refine ⟨k + 1, ?_, ?_⟩
      · rw [stdin_to_pipe_aux]
        simp only [hr]
        rw [hc]
        omega
      · rw [stdin_to_pipe_aux]
        simp only [hr]
        rw [hw, okChunksFrom_succ, hr]
        simp [okChunk, List.take_left]

/-- Claim C8: over any trace of console reads, with the channel writes
succeeding, the buffers `stdin_to_pipe` writes to the channel are exactly
the chunks of the successful reads it consumed — the first `n` bytes of
each, in the same order — so their concatenation equals the concatenation
of the bytes read. -/
theorem stdin_to_pipe_preserves_bytes :
    ∀ (reads : Nat → Except WinErr (List Nat)) (fuel : Nat),
      (stdin_to_pipe reads (fun _ => none) fuel).written
          = okChunksFrom reads 0 ((stdin_to_pipe reads (fun _ => none) fuel).consumed) ∧
      ((stdin_to_pipe reads (fun _ => none) fuel).written).flatten
          = okBytesFrom reads 0 ((stdin_to_pipe reads (fun _ => none) fuel).consumed) := by
  intro reads fuel
  obtain ⟨k, hc, hw⟩ := stdin_to_pipe_aux_inv reads fuel 0 0 []
  have hc2 : (stdin_to_pipe reads (fun _ => none) fuel).consumed = k := by
    rw [stdin_to_pipe, hc]
    exact Nat.zero_add k
  have h1 : (stdin_to_pipe reads (fun _ => none) fuel).written
      = okChunksFrom reads 0 ((stdin_to_pipe reads (fun _ => none) fuel).consumed) := by
    rw [hc2, stdin_to_pipe, hw]
    simp
  refine ⟨h1, ?_⟩
  rw [h1]
  rfl

/-- Claim C3, counterexample: three consecutive zero-byte console reads
do not end the `stdin_to_pipe` loop; each writes an empty buffer to the
channel and the loop keeps running. -/
theorem stdin_zero_read_not_eof :
    (stdin_to_pipe zero_reads (fun _ => none) 3).result = none ∧
    (stdin_to_pipe zero_reads (fun _ => none) 3).written = [[], [], []] :=
  ⟨rfl, rfl⟩

/-- The `stdin_to_pipe` loop never terminates on a trace of zero-byte
reads with succeeding writes, whatever the fuel. -/
theorem stdin_all_zero_runs_forever (reads : Nat → Except WinErr (List Nat))
    (wres : Nat → Option WinErr) (hr : ∀ i, reads i = .ok [])
    (hw : ∀ i, wres i = none) :
    ∀ (fuel ri wi : Nat) (acc : List (List Nat)),
      (stdin_to_pipe_aux reads wres ri wi acc fuel).result = none := by
  intro fuel
  induction fuel with
  | zero => intro ri wi acc; rfl
  | succ n ih =>
    intro ri wi acc
    rw [stdin_to_pipe_aux]
    simp only [hr ri, hw wi]
    exact ih (ri + 1) (wi + 1) _

/-- Claim C3 (amended): `stdin_to_pipe` does not special-case a successful
zero-byte read.  A read of `n == 0` bytes writes a zero-byte buffer to the
channel and continues the loop, and a trace of nothing but zero-byte reads
never terminates the direction; the loop exits without error only on
`ERROR_OPERATION_ABORTED`. -/
theorem stdin_zero_read_continues :
    ∀ (reads : Nat → Except WinErr (List Nat)) (wres : Nat → Option WinErr)
      (ri wi : Nat) (acc : List (List Nat)) (fuel : Nat),
      (reads ri = .ok [] → wres wi = none →
        stdin_to_pipe_aux reads wres ri wi acc (fuel + 1)
          = stdin_to_pipe_aux reads wres (ri + 1) (wi + 1) (acc ++ [[]]) fuel) ∧
      ((∀ i, reads i = .ok []) → (∀ i, wres i = none) →
        (stdin_to_pipe_aux reads wres ri wi acc fuel).result = none) := by
  intro reads wres ri wi acc fuel
  constructor
  · intro h1 h2
    rw [stdin_to_pipe_aux]
    simp only [h1, h2]
    simp only [List.length_nil, List.take_zero]
  · intro h1 h2
    exact stdin_all_zero_runs_forever reads wres h1 h2 fuel ri wi acc

/-- Witness for `stdin_zero_read_continues`: on the all-zero trace the
loop is still running after 7 iterations. -/
theorem stdin_zero_read_continues_witness :
    (stdin_to_pipe_aux zero_reads (fun _ => none) 0 0 [] 7).result = none :=
  (stdin_zero_read_continues zero_reads (fun _ => none) 0 0 [] 7).2
    (fun _ => rfl) (fun _ => rfl)

/-- Invariant of the `pipe_to_stdout` loop with a configured sink and
fault-free writes: starting at read index `ri`, the run consumes some `k`
further reads, and both the console output and the file output extend
their accumulators by exactly the bytes of the successful reads among
them, in order. -/
theorem pipe_to_stdout_aux_inv (reads : Nat → Except WinErr (List Nat)) :
    ∀ (fuel ri ci fi : Nat) (conAcc fileAcc : List (List Nat)),
      ∃ k,
        (pipe_to_stdout_aux reads (fun _ => none) (fun _ => none) true
          ri ci fi conAcc fileAcc fuel).consumed = ri + k ∧
        (pipe_to_stdout_aux reads (fun _ => none) (fun _ => none) true
          ri ci fi conAcc fileAcc fuel).conOut.flatten
            = conAcc.flatten ++ okBytesFrom reads ri k ∧
        (pipe_to_stdout_aux reads (fun _ => none) (fun _ => none) true
          ri ci fi conAcc fileAcc fuel).fileOut.flatten
            = fileAcc.flatten ++ okBytesFrom reads ri k := by
  intro fuel
  induction fuel with
  | zero =>
    intro ri ci fi conAcc fileAcc
    refine ⟨0, rfl, ?_, ?_⟩
    · simp [pipe_to_stdout_aux, okBytesFrom_zero]
    · simp [pipe_to_stdout_aux, okBytesFrom_zero]
  | succ n ih =>
    intro ri ci fi conAcc fileAcc
    cases hr : reads ri with
    | ok data =>
      by_cases hz : data.length = 0
      · obtain ⟨k, hc, hcon, hfile⟩ := ih (ri + 1) ci fi conAcc fileAcc
        have hdata : data = [] := List.length_eq_zero.mp hz
        refine ⟨k + 1, ?_, ?_, ?_⟩
        · rw [pipe_to_stdout_aux]
          simp only [hr, if_pos hz]
          rw [hc]
          omega
        · rw [pipe_to_stdout_aux]
          simp only [hr, if_pos hz]
          rw [hcon, okBytesFrom_succ, hr]
          simp [okChunk, hdata]
        · rw [pipe_to_stdout_aux]
          simp only [hr, if_pos hz]
          rw [hfile, okBytesFrom_succ, hr]
          simp [okChunk, hdata]
      · obtain ⟨k, hc, hcon, hfile⟩ :=
          ih (ri + 1) (ci + 1) (fi + 1) (conAcc ++ [data]) (fileAcc ++ [data])
        refine ⟨k + 1, ?_, ?_, ?_⟩
        · rw [pipe_to_stdout_aux]
          simp only [hr, if_neg hz, if_true]
          rw [hc]
          omega
        · rw [pipe_to_stdout_aux]
          simp only [hr, if_neg hz, if_true]
          rw [hcon, okBytesFrom_succ, hr]
          simp [okChunk]
        · rw [pipe_to_stdout_aux]
          simp only [hr, if_neg hz, if_true]
          rw [hfile, okBytesFrom_succ, hr]
          simp [okChunk]
    | error e =>
      refine ⟨0, ?_, ?_, ?_⟩
      · rw [pipe_to_stdout_aux]
        by_cases hd : e = WinErr.notConnected
        · simp only [hr, if_pos hd]
          omega
        · simp only [hr, if_neg hd]
          omega
      · rw [pipe_to_stdout_aux]
        by_cases hd : e = WinErr.notConnected
        · simp only [hr, if_pos hd]
          simp [okBytesFrom_zero]
        · simp only [hr, if_neg hd]
          simp [okBytesFrom_zero]
      · rw [pipe_to_stdout_aux]
        by_cases hd : e = WinErr.notConnected
        · simp only [hr, if_pos hd]
          simp [okBytesFrom_zero]
        · simp only [hr, if_neg hd]
          simp [okBytesFrom_zero]

/-- Claim C4, counterexample: the channel delivers exactly the bytes of
`"pong"`, and the terminal and the relay's own file appends receive
exactly those bytes — but the redirection file does not contain only
them: the logger, configured by `setup_logger(&args.redir)` on the same
path, has already appended its initialization record to it. -/
theorem redir_sink_gets_logger_bytes :
    (pts_clean pong_reads 4).conOut.flatten = [112, 111, 110, 103] ∧
    (pts_clean pong_reads 4).fileOut.flatten = [112, 111, 110, 103] ∧
    redir_sink_with_logger pong_reads 4 ≠ [112, 111, 110, 103] := by
  refine ⟨rfl, rfl, ?_⟩
  decide

/-- Claim C4 (amended): for every channel trace, with writes succeeding,
the terminal receives exactly the bytes read, in order, and the relay
appends exactly those same bytes, in order, to the redirection sink — but
not exclusively: the sink also holds logger records, because
`setup_logger` installs a file appender on the same path (at least the
initialization record precedes the relayed bytes). -/
theorem pipe_to_stdout_tee_amended :
    ∀ (reads : Nat → Except WinErr (List Nat)) (fuel : Nat),
      (pts_clean reads fuel).conOut.flatten
          = okBytesFrom reads 0 ((pts_clean reads fuel).consumed) ∧
      (pts_clean reads fuel).fileOut.flatten
          = okBytesFrom reads 0 ((pts_clean reads fuel).consumed) ∧
      redir_sink_with_logger reads fuel
          = loggerInitMessage ++ okBytesFrom reads 0 ((pts_clean reads fuel).consumed) := by
  intro reads fuel
  obtain ⟨k, hc, hcon, hfile⟩ := pipe_to_stdout_aux_inv reads fuel 0 0 0 [] []
  have hpts : pts_clean reads fuel
      = pipe_to_stdout_aux reads (fun _ => none) (fun _ => none) true
          0 0 0 [] [] fuel := rfl
  have hc2 : (pts_clean reads fuel).consumed = k := by
    rw [hpts, hc]
    exact Nat.zero_add k
  have h1 : (pts_clean reads fuel).conOut.flatten
      = okBytesFrom reads 0 ((pts_clean reads fuel).consumed) := by
    rw [hc2, hpts, hcon]
    simp
  have h2 : (pts_clean reads fuel).fileOut.flatten
      = okBytesFrom reads 0 ((pts_clean reads fuel).consumed) := by
    rw [hc2, hpts, hfile]
    simp
  refine ⟨h1, h2, ?_⟩
  unfold redir_sink_with_logger
  rw [h2]

/-- Per-run protocol of the `pipe_to_stdout` loop, for arbitrary write
oracles and redirection setting: a graceful (`Ok`) finish happens only at
a read that failed with `ERROR_PIPE_NOT_CONNECTED` and performs exactly
one `cancel_read`; an error finish performs none and its terminating read
was not a disconnection; a still-running loop has performed none. -/
theorem pipe_to_stdout_aux_protocol (reads : Nat → Except WinErr (List Nat))
    (conW fileW : Nat → Option WinErr) (redir : Bool) :
    ∀ (fuel ri ci fi : Nat) (conAcc fileAcc : List (List Nat)),
      ((pipe_to_stdout_aux reads conW fileW redir ri ci fi conAcc fileAcc fuel).result
          = some (.ok ()) →
        reads (pipe_to_stdout_aux reads conW fileW redir ri ci fi conAcc fileAcc fuel).consumed
          = .error WinErr.notConnected ∧
        (pipe_to_stdout_aux reads conW fileW redir ri ci fi conAcc fileAcc fuel).cancels = 1) ∧
      (∀ e, (pipe_to_stdout_aux reads conW fileW redir ri ci fi conAcc fileAcc fuel).result
          = some (.error e) →
        (pipe_to_stdout_aux reads conW fileW redir ri ci fi conAcc fileAcc fuel).cancels = 0 ∧
        reads (pipe_to_stdout_aux reads conW fileW redir ri ci fi conAcc fileAcc fuel).consumed
          ≠ .error WinErr.notConnected) ∧
      ((pipe_to_stdout_aux reads conW fileW redir ri ci fi conAcc fileAcc fuel).result = none →
        (pipe_to_stdout_aux reads conW fileW redir ri ci fi conAcc fileAcc fuel).cancels = 0) := by
  intro fuel
  induction fuel with
  | zero =>
    intro ri ci fi conAcc fileAcc
    refine ⟨?_, ?_, ?_⟩
    · intro h
      exact absurd h (by simp [pipe_to_stdout_aux])
    · intro e h
      exact absurd h (by simp [pipe_to_stdout_aux])
    · intro _
      rfl
  | succ n ih =>
    intro ri ci fi conAcc fileAcc
    cases hr : reads ri with
    | ok data =>
      by_cases hz : data.length = 0
      · have hstep : pipe_to_stdout_aux reads conW fileW redir ri ci fi conAcc fileAcc (n + 1)
            = pipe_to_stdout_aux reads conW fileW redir (ri + 1) ci fi conAcc fileAcc n := by
          rw [pipe_to_stdout_aux]
          simp only [hr, if_pos hz]
        rw [hstep]
        exact ih (ri + 1) ci fi conAcc fileAcc
      · cases hcw : conW ci with
        | some e =>
          have hstep : pipe_to_stdout_aux reads conW fileW redir ri ci fi conAcc fileAcc (n + 1)
              = ⟨some (.error e), conAcc, fileAcc, 0, ri⟩ := by
            rw [pipe_to_stdout_aux]
            simp only [hr, if_neg hz, hcw]
          rw [hstep]
          refine ⟨?_, ?_, ?_⟩
          · intro h
            exact absurd h (by simp)
          · intro e2 _
            exact ⟨rfl, by simp [hr]⟩
          · intro h
            exact absurd h (by simp)
        | none =>
          cases redir with
          | true =>
            cases hfw : fileW fi with
            | some e =>
              have hstep : pipe_to_stdout_aux reads conW fileW true ri ci fi conAcc fileAcc (n + 1)
                  = ⟨some (.error e), conAcc ++ [data], fileAcc, 0, ri⟩ := by
                rw [pipe_to_stdout_aux]
                simp only [hr, if_neg hz, hcw, hfw, if_true]
              rw [hstep]
              refine ⟨?_, ?_, ?_⟩
              · intro h
                exact absurd h (by simp)
              · intro e2 _
                exact ⟨rfl, by simp [hr]⟩
              · intro h
                exact absurd h (by simp)
            | none =>
              have hstep : pipe_to_stdout_aux reads conW fileW true ri ci fi conAcc fileAcc (n + 1)
                  = pipe_to_stdout_aux reads conW fileW true (ri + 1) (ci + 1) (fi + 1)
                      (conAcc ++ [data]) (fileAcc ++ [data]) n := by
                rw [pipe_to_stdout_aux]
                simp only [hr, if_neg hz, hcw, hfw, if_true]
              rw [hstep]
              exact ih (ri + 1) (ci + 1) (fi + 1) (conAcc ++ [data]) (fileAcc ++ [data])
          | false =>
            have hstep : pipe_to_stdout_aux reads conW fileW false ri ci fi conAcc fileAcc (n + 1)
                = pipe_to_stdout_aux reads conW fileW false (ri + 1) (ci + 1) fi
                    (conAcc ++ [data]) fileAcc n := by
              rw [pipe_to_stdout_aux]
              simp only [hr, if_neg hz, hcw, Bool.false_eq_true, if_false]
            rw [hstep]
            exact ih (ri + 1) (ci + 1) fi (conAcc ++ [data]) fileAcc
    | error e =>
      by_cases hd : e = WinErr.notConnected
      · have hstep : pipe_to_stdout_aux reads conW fileW redir ri ci fi conAcc fileAcc (n + 1)
            = ⟨some (.ok ()), conAcc, fileAcc, 1, ri⟩ := by
          rw [pipe_to_stdout_aux]
          simp only [hr, if_pos hd]
        rw [hstep]
        refine ⟨?_, ?_, ?_⟩
        · intro _
          refine ⟨?_, rfl⟩
          rw [hr, hd]
        · intro e2 h
          exact absurd h (by simp)
        · intro h
          exact absurd h (by simp)
      · have hstep : pipe_to_stdout_aux reads conW fileW redir ri ci fi conAcc fileAcc (n + 1)
            = ⟨some (.error e), conAcc, fileAcc, 0, ri⟩ := by
          rw [pipe_to_stdout_aux]
          simp only [hr, if_neg hd]
        rw [hstep]
        refine ⟨?_, ?_, ?_⟩
        · intro h
          exact absurd h (by simp)
        · intro e2 _
          refine ⟨rfl, ?_⟩
          rw [hr]
          intro hc
          injection hc with h2
          exact hd h2
        · intro h
          exact absurd h (by simp)

/-- Claim C6: a zero-byte `pipe.read` never ends the channel-to-terminal
direction — it is exactly a backoff-and-retry step — and a run started
from the initial state finishes gracefully (`Ok`) precisely when it
terminated at a read that failed with `ERROR_PIPE_NOT_CONNECTED`; in that
case, and in that case only, it invokes `cancel_read` (exactly once)
before finishing. -/
theorem pipe_to_stdout_disconnect_protocol :
    ∀ (reads : Nat → Except WinErr (List Nat)) (conW fileW : Nat → Option WinErr)
      (redir : Bool) (ri ci fi : Nat) (conAcc fileAcc : List (List Nat)) (fuel : Nat),
      (reads ri = .ok [] →
        pipe_to_stdout_aux reads conW fileW redir ri ci fi conAcc fileAcc (fuel + 1)
          = pipe_to_stdout_aux reads conW fileW redir (ri + 1) ci fi conAcc fileAcc fuel) ∧
      (∀ r, r = pipe_to_stdout_aux reads conW fileW redir 0 0 0 [] [] fuel →
        (r.result = some (.ok ()) ↔
          r.result ≠ none ∧ reads r.consumed = .error WinErr.notConnected) ∧
        (r.result = some (.ok ()) → r.cancels = 1) ∧
        (r.result ≠ some (.ok ()) → r.cancels = 0)) := by
  intro reads conW fileW redir ri ci fi conAcc fileAcc fuel
  constructor
  · intro h
    rw [pipe_to_stdout_aux]
    simp only [h, List.length_nil]
    rw [if_pos trivial]
  · intro r hrr
    obtain ⟨hok, herr, hnone⟩ :=
      pipe_to_stdout_aux_protocol reads conW fileW redir fuel 0 0 0 [] []
    subst hrr
    refine ⟨?_, fun h => (hok h).2, ?_⟩
    · constructor
      · intro h
        exact ⟨by rw [h]; exact Option.noConfusion, (hok h).1⟩
      · rintro ⟨hne, hcons⟩
        cases hres : (pipe_to_stdout_aux reads conW fileW redir 0 0 0 [] [] fuel).result with
        | none => exact absurd hres hne
        | some v =>
          cases v with
          | ok u =>
            cases u
            rfl
          | error e =>
            exact absurd hcons (herr e hres).2
    · intro h
      cases hres : (pipe_to_stdout_aux reads conW fileW redir 0 0 0 [] [] fuel).result with
      | none => exact hnone hres
      | some v =>
        cases v with
        | ok u =>
          cases u
          exact absurd hres h
        | error e => exact (herr e hres).1

/-- Witness for `pipe_to_stdout_disconnect_protocol`: a run that reads one
chunk and then observes disconnection invokes `cancel_read` exactly once. -/
theorem pipe_to_stdout_disconnect_witness :
    (pipe_to_stdout_aux c6_reads (fun _ => none) (fun _ => none) true
      0 0 0 [] [] 4).cancels = 1 :=
  ((pipe_to_stdout_disconnect_protocol c6_reads (fun _ => none) (fun _ => none)
    true 0 0 0 [] [] 4).2 _ rfl).2.1 rfl
